import Mathlib

/-!
# port-web-app: a static portfolio server (Go, net/http)

Shallow embedding of `main.go` and of the parts of the Go standard library
(`fmt`, `path`, `net/http`) its behaviour depends on, followed by the
properties of the three handlers, of the routing and of start-up.

Conventions of the embedding:
* a Go `string` is a Lean `String`; the scanning code of `fmt` and `path`
  works on its characters (`List Char`).  Every byte those packages test for
  is ASCII, so scanning characters and scanning the bytes of the UTF-8
  encoding agree;
* the package-level variable `projects` is read by `projectsHandler`; the
  handler takes its value as an explicit argument;
* an `http.ResponseWriter` is a record of what the handler has written
  (header, status, body);
* `none` stands for a Go panic or for a library path that is not part of the
  embedding (stated at the definition concerned).
-/

set_option autoImplicit false

namespace PortWebApp

/-! ## package fmt -/

namespace fmt

/-- An operand of a print call as the verbs `s` and `v` see it: the name of
its dynamic type and its text (the string itself, or `Error()` of an error). -/
structure Operand where
  typeName : String
  text : String
  deriving DecidableEq, Repr

/-- A string operand. -/
def Operand.ofString (s : String) : Operand := ⟨"string", s⟩

/-- Go `fmtFlags` together with the `wid` and `prec` fields of `fmt`. -/
structure fmtFlags where
  widPresent : Bool := false
  precPresent : Bool := false
  minus : Bool := false
  plus : Bool := false
  sharp : Bool := false
  space : Bool := false
  zero : Bool := false
  plusV : Bool := false
  sharpV : Bool := false
  wid : Int := 0
  prec : Int := 0
  deriving DecidableEq, Repr

/-- Go `(*fmt).clearflags`: resets the flags, leaves `wid` and `prec`. -/
def fmtFlags.clearflags (f : fmtFlags) : fmtFlags :=
  { wid := f.wid, prec := f.prec }

/-- Go `pp`: the output buffer and the fields `doPrintf` reads and writes. -/
structure pp where
  buf : List Char := []
  fmt : fmtFlags := {}
  reordered : Bool := false
  goodArgNum : Bool := false
  deriving DecidableEq, Repr

/-- Go `buffer.writeString`. -/
def pp.writeString (p : pp) (s : List Char) : pp := { p with buf := p.buf ++ s }

/-- Go `tooLarge`: the bound on widths, precisions and argument numbers. -/
def tooLarge (x : Int) : Bool := x > 1000000 || x < -1000000

/-- The loop of Go `parsenum` over the window `s[newi:end]`; the third
component is what is left of the window (empty after the overflow return,
which sets `newi = end`). -/
def parsenumLoop : Int → Bool → List Char → Int × Bool × List Char
  | num, isnum, [] => (num, isnum, [])
  | num, isnum, c :: cs =>
    if '0' ≤ c ∧ c ≤ '9' then
      if tooLarge num then (0, false, [])
      else parsenumLoop (num * 10 + ((c.toNat : Int) - ('0'.toNat : Int))) true cs
    else (num, isnum, c :: cs)

/-- Go `parsenum(s, start, end)` on the window `s[start:end]`. -/
def parsenum (window : List Char) : Int × Bool × List Char :=
  parsenumLoop 0 false window

/-- Go `parseArgNumber(format)` for a `format` that starts with `[`: the
index, the text after the consumed characters (`format[wid:]`) and `ok`. -/
def parseArgNumber (format : List Char) : Int × List Char × Bool :=
  if (String.mk format).utf8ByteSize < 3 then (0, format.drop 1, false)
  else
    let inner := (format.drop 1).takeWhile (fun c => c != ']')
    match (format.drop 1).dropWhile (fun c => c != ']') with
    | [] => (0, format.drop 1, false)
    | _ :: after =>
      match parsenum inner with
      | (width, ok, left) =>
        if !ok || !left.isEmpty then (0, after, false)
        else (width - 1, after, true)

/-- Go `(*pp).argNumber`: an explicit argument index `[n]` at the start of
`format`, if any.  Returns the state, the new argument number, the rest of
the format and `found`. -/
def argNumber (p : pp) (argNum : Nat) (format : List Char) (numArgs : Nat) :
    pp × Nat × List Char × Bool :=
  match format with
  | '[' :: _ =>
    let p := { p with reordered := true }
    match parseArgNumber format with
    | (index, rest, ok) =>
      if ok && decide (0 ≤ index) && decide (index < (numArgs : Int)) then
        (p, index.toNat, rest, true)
      else ({ p with goodArgNum := false }, argNum, rest, ok)
  | _ => (p, argNum, format, false)

/-- Go `intFromArg` for operands that are strings or errors, never integers:
the operand is consumed and no integer is found. -/
def intFromArg (a : List Operand) (argNum : Nat) : Int × Bool × Nat :=
  if argNum < a.length then (0, false, argNum + 1) else (0, false, argNum)

/-- Go `(*pp).printArg` on an operand, for the directives in the embedding:
verb `s`, or verb `v` without the sharp flag, with neither width nor
precision; `fmtS` then writes the text unchanged.  Other directives applied
to an operand (padding, truncation, `q`, `x`, bad verbs) are not embedded. -/
def printArg (p : pp) (arg : Operand) (verb : Char) : Option pp :=
  if p.fmt.widPresent || p.fmt.precPresent then none
  else if verb = 's' then some (p.writeString arg.text.data)
  else if verb = 'v' ∧ p.fmt.sharpV = false then some (p.writeString arg.text.data)
  else none

/-- Outcome of the flag loop (`simpleFormat`) of `doPrintf`. -/
inductive FlagScan where
  /-- The fast path printed an operand; `continue formatLoop`. -/
  | printed (p : Option pp) (rest : List Char)
  /-- The loop was left with the format at `rest`. -/
  | complex (p : pp) (rest : List Char)

/-- The loop labelled `simpleFormat` in `doPrintf`. -/
def simpleFormat (a : List Operand) (argNum : Nat) : pp → List Char → FlagScan
  | p, [] => .complex p []
  | p, c :: cs =>
    if c = '#' then simpleFormat a argNum { p with fmt := { p.fmt with sharp := true } } cs
    else if c = '0' then
      simpleFormat a argNum { p with fmt := { p.fmt with zero := !p.fmt.minus } } cs
    else if c = '+' then simpleFormat a argNum { p with fmt := { p.fmt with plus := true } } cs
    else if c = '-' then
      simpleFormat a argNum { p with fmt := { p.fmt with minus := true, zero := false } } cs
    else if c = ' ' then simpleFormat a argNum { p with fmt := { p.fmt with space := true } } cs
    else if 'a' ≤ c ∧ c ≤ 'z' ∧ argNum < a.length then
      let p := if c = 'v' then
          { p with fmt := { p.fmt with sharpV := p.fmt.sharp, sharp := false,
                                       plusV := p.fmt.plus, plus := false } }
        else p
      match a.get? argNum with
      | some arg => .printed (printArg p arg c) cs
      | none => .printed none cs
    else .complex p (c :: cs)

/-- Width part of `doPrintf`: `*` or a number.  Returns the state, the
argument number, the rest of the format and `afterIndex`. -/
def parseWidth (p : pp) (a : List Operand) (argNum : Nat) (afterIndex : Bool)
    (format : List Char) : pp × Nat × List Char × Bool :=
  match format with
  | '*' :: rest =>
    match intFromArg a argNum with
    | (wid, widPresent, argNum) =>
      let p := { p with fmt := { p.fmt with wid := wid, widPresent := widPresent } }
      let p := if !p.fmt.widPresent then p.writeString "%!(BADWIDTH)".data else p
      let p := if p.fmt.wid < 0 then
          { p with fmt := { p.fmt with wid := -p.fmt.wid, minus := true, zero := false } }
        else p
      (p, argNum, rest, false)
  | _ =>
    match parsenum format with
    | (wid, widPresent, rest) =>
      let p := { p with fmt := { p.fmt with wid := wid, widPresent := widPresent } }
      let p := if afterIndex && p.fmt.widPresent then { p with goodArgNum := false } else p
      (p, argNum, rest, afterIndex)

/-- Precision part of `doPrintf`, entered when the format is at a `.`. -/
def parsePrecision (p : pp) (a : List Operand) (argNum : Nat) (afterIndex : Bool)
    (format : List Char) : pp × Nat × List Char × Bool :=
  match format with
  | '.' :: rest =>
    let p := if afterIndex then { p with goodArgNum := false } else p
    match argNumber p argNum rest a.length with
    | (p, argNum, rest, afterIndex) =>
      match rest with
      | '*' :: rest =>
        match intFromArg a argNum with
        | (prec, precPresent, argNum) =>
          let p := { p with fmt := { p.fmt with prec := prec, precPresent := precPresent } }
          let p := if p.fmt.prec < 0 then
              { p with fmt := { p.fmt with prec := 0, precPresent := false } }
            else p
          let p := if !p.fmt.precPresent then p.writeString "%!(BADPREC)".data else p
          (p, argNum, rest, false)
      | _ =>
        match parsenum rest with
        | (prec, precPresent, rest) =>
          let p := { p with fmt := { p.fmt with prec := prec, precPresent := precPresent } }
          let p := if !p.fmt.precPresent then
              { p with fmt := { p.fmt with prec := 0, precPresent := true } }
            else p
          (p, argNum, rest, afterIndex)
  | _ => (p, argNum, format, afterIndex)

/-- Go `(*pp).badArgNum`. -/
def badArgNum (p : pp) (verb : Char) : pp :=
  ((p.writeString "%!".data).writeString [verb]).writeString "(BADINDEX)".data

/-- Go `(*pp).missingArg`. -/
def missingArg (p : pp) (verb : Char) : pp :=
  ((p.writeString "%!".data).writeString [verb]).writeString "(MISSING)".data

/-- The verb switch at the end of one directive of `doPrintf`. -/
def printVerb (p : pp) (a : List Operand) (argNum : Nat) (verb : Char) : Option (pp × Nat) :=
  if verb = '%' then some (p.writeString ['%'], argNum)
  else if !p.goodArgNum then some (badArgNum p verb, argNum)
  else if argNum ≥ a.length then some (missingArg p verb, argNum)
  else
    let p := if verb = 'v' then
        { p with fmt := { p.fmt with sharpV := p.fmt.sharp, sharp := false,
                                     plusV := p.fmt.plus, plus := false } }
      else p
    match a.get? argNum with
    | some arg => (printArg p arg verb).map (fun p => (p, argNum + 1))
    | none => none

/-- The loop labelled `formatLoop` in `doPrintf`, on the unread part of the
format.  Every round that does not end the loop consumes a `%`, so a fuel
above the length of the format is never used up. -/
def formatLoop (a : List Operand) : Nat → pp → Nat → Bool → List Char → Option (pp × Nat)
  | 0, _, _, _, _ => none
  | fuel + 1, p, argNum, afterIndex, format =>
    let p := { p with goodArgNum := true }
    let p := p.writeString (format.takeWhile (fun c => c != '%'))
    match format.dropWhile (fun c => c != '%') with
    | [] => some (p, argNum)
    | _ :: format =>
      let p := { p with fmt := p.fmt.clearflags }
      match simpleFormat a argNum p format with
      | .printed p format =>
        match p with
        | some p => formatLoop a fuel p (argNum + 1) afterIndex format
        | none => none
      | .complex p format =>
        match argNumber p argNum format a.length with
        | (p, argNum, format, afterIndex) =>
          match parseWidth p a argNum afterIndex format with
          | (p, argNum, format, afterIndex) =>
            match parsePrecision p a argNum afterIndex format with
            | (p, argNum, format, afterIndex) =>
              match (if !afterIndex then argNumber p argNum format a.length
                     else (p, argNum, format, afterIndex)) with
              | (p, argNum, format, afterIndex) =>
                match format with
                | [] => some (p.writeString "%!(NOVERB)".data, argNum)
                | verb :: format =>
                  match printVerb p a argNum verb with
                  | some (p, argNum) => formatLoop a fuel p argNum afterIndex format
                  | none => none

/-- The report of unused operands at the end of `doPrintf`:
`%!(EXTRA type=value, ...)`. -/
def extraArgs : List Operand → List Char
  | [] => []
  | [arg] => arg.typeName.data ++ ['='] ++ arg.text.data
  | arg :: args => arg.typeName.data ++ ['='] ++ arg.text.data ++ ", ".data ++ extraArgs args

/-- Go `(*pp).doPrintf`: the text produced for `format` and operands `a`. -/
def doPrintf (format : String) (a : List Operand) : Option (List Char) :=
  match formatLoop a (format.data.length + 1) {} 0 false format.data with
  | none => none
  | some (p, argNum) =>
    if !p.reordered && argNum < a.length then
      some (p.buf ++ "%!(EXTRA ".data ++ extraArgs (a.drop argNum) ++ [')'])
    else some p.buf

/-- Go `fmt.Sprintf`. -/
def Sprintf (format : String) (a : List Operand) : Option String :=
  (doPrintf format a).map String.mk

/-- Go `fmt.Sprintln` restricted to operands printed by their text: the
operands separated by spaces, then a newline. -/
def Sprintln (a : List Operand) : String :=
  String.intercalate " " (a.map (fun x => x.text)) ++ "\n"

end fmt

/-! ## package path -/

namespace path

/-- The backtracking loop of `Clean` on a `..` element: from write index `w`,
step down while `w > dotdot` and the character at `w` is not a slash. -/
def backtrack (buf : List Char) (dotdot : Nat) : Nat → Nat
  | 0 => 0
  | w + 1 => if w + 1 > dotdot ∧ buf.getD (w + 1) ' ' ≠ '/' then backtrack buf dotdot w else w + 1

/-- The main loop of Go `path.Clean` on the unread part of the path, with the
output buffer `out` (its length is the write index `w`).  Every round
consumes a character, so a fuel above the length of the path is never used
up. -/
def cleanLoop (rooted : Bool) : Nat → List Char → Nat → List Char → List Char
  | 0, out, _, _ => out
  | _ + 1, out, _, [] => out
  | fuel + 1, out, dotdot, c :: cs =>
    if c = '/' then cleanLoop rooted fuel out dotdot cs
    else if c = '.' ∧ (cs = [] ∨ cs.head? = some '/') then cleanLoop rooted fuel out dotdot cs
    else if c = '.' ∧ cs.head? = some '.' ∧
        (cs.drop 1 = [] ∨ (cs.drop 1).head? = some '/') then
      if out.length > dotdot then
        cleanLoop rooted fuel (out.take (backtrack out dotdot (out.length - 1))) dotdot (cs.drop 1)
      else if !rooted then
        let out := (if out.length > 0 then out ++ ['/'] else out) ++ ['.', '.']
        cleanLoop rooted fuel out out.length (cs.drop 1)
      else cleanLoop rooted fuel out dotdot (cs.drop 1)
    else
      let out := if rooted && out.length != 1 || !rooted && out.length != 0
        then out ++ ['/'] else out
      cleanLoop rooted fuel (out ++ (c :: cs).takeWhile (fun x => x != '/')) dotdot
        ((c :: cs).dropWhile (fun x => x != '/'))

/-- Go `path.Clean`. -/
def Clean (path : String) : String :=
  if path = "" then "."
  else
    let rooted := path.data.head? = some '/'
    let out := if rooted
      then cleanLoop true (path.data.length + 1) ['/'] 1 (path.data.drop 1)
      else cleanLoop false (path.data.length + 1) [] 0 path.data
    if out.length = 0 then "." else String.mk out

end path

/-! ## package net/http -/

namespace http

/-- Go `url.URL`: the fields the program and the multiplexer read. -/
structure URL where
  Path : String
  RawPath : String := ""
  RawQuery : String := ""
  Host : String := ""
  deriving DecidableEq, Repr

/-- Go `http.Request`: the fields the program and the multiplexer read. -/
structure Request where
  Method : String
  URL : URL
  Host : String := ""
  RequestURI : String := ""
  Body : String := ""
  ProtoMajor : Nat := 1
  ProtoMinor : Nat := 1
  deriving DecidableEq, Repr

/-- An `http.ResponseWriter` that records what a handler writes, as
`httptest.ResponseRecorder` does. -/
structure ResponseWriter where
  HeaderMap : List (String × String) := []
  Code : Nat := 200
  wroteHeader : Bool := false
  Body : String := ""
  deriving DecidableEq, Repr

/-- Go `httptest.NewRecorder`. -/
def NewRecorder : ResponseWriter := {}

/-- Go `Header.Set` for a key in canonical form. -/
def ResponseWriter.HeaderSet (w : ResponseWriter) (key value : String) : ResponseWriter :=
  { w with HeaderMap := (w.HeaderMap.filter (fun kv => kv.1 != key)) ++ [(key, value)] }

/-- Go `ResponseWriter.WriteHeader`: only the first call sets the status. -/
def ResponseWriter.WriteHeader (w : ResponseWriter) (code : Nat) : ResponseWriter :=
  if w.wroteHeader then w else { w with Code := code, wroteHeader := true }

/-- Go `ResponseWriter.Write`: an implicit `WriteHeader(StatusOK)` when the
header has not been written, then the data is appended to the body. -/
def ResponseWriter.Write (w : ResponseWriter) (data : String) : ResponseWriter :=
  let w := w.WriteHeader 200
  { w with Body := w.Body ++ data }

/-- Go `fmt.Fprintf` on a response writer. -/
def Fprintf (w : ResponseWriter) (format : String) (a : List fmt.Operand) :
    Option ResponseWriter :=
  (fmt.Sprintf format a).map w.Write

/-- Go `fmt.Fprintln` on a response writer. -/
def Fprintln (w : ResponseWriter) (a : List fmt.Operand) : ResponseWriter :=
  w.Write (fmt.Sprintln a)

/-- Go `http.StatusNotFound`. -/
def StatusNotFound : Nat := 404

/-- Go `http.StatusMovedPermanently`. -/
def StatusMovedPermanently : Nat := 301

/-- Go `http.StatusTemporaryRedirect`. -/
def StatusTemporaryRedirect : Nat := 307

/-- The status the multiplexer gives its own redirects.  It depends on the Go
release, and `main.go` pins none: `StatusMovedPermanently` in the older
releases, `StatusTemporaryRedirect` in the recent ones. -/
inductive RedirectStatus where
  | MovedPermanently
  | TemporaryRedirect
  deriving DecidableEq, Repr

/-- The status code of a redirect status. -/
def RedirectStatus.code : RedirectStatus → Nat
  | .MovedPermanently => StatusMovedPermanently
  | .TemporaryRedirect => StatusTemporaryRedirect

/-- Go `http.StatusBadRequest`. -/
def StatusBadRequest : Nat := 400

/-- Go `http.Error`. -/
def Error (w : ResponseWriter) (error : String) (code : Nat) : ResponseWriter :=
  let w := w.HeaderSet "Content-Type" "text/plain; charset=utf-8"
  let w := w.HeaderSet "X-Content-Type-Options" "nosniff"
  let w := w.WriteHeader code
  Fprintln w [fmt.Operand.ofString error]

/-- Go `http.NotFound`. -/
def NotFound (w : ResponseWriter) (_r : Request) : ResponseWriter :=
  Error w "404 page not found" StatusNotFound

/-- What a handler of the multiplexer answers with: the record of a handler
that ran, or the redirect issued by a `RedirectHandler` (`http.Redirect`
answers with status `code` and a `Location` header for `url`; its body is
not part of the embedding). -/
inductive Served where
  | written (w : ResponseWriter)
  | redirect (url : URL) (code : Nat)
  deriving DecidableEq, Repr

/-- Status code of an answer. -/
def Served.status : Served → Nat
  | .written w => w.Code
  | .redirect _ code => code

/-- Go `http.Handler`: a `HandlerFunc`, or the `redirectHandler` built by
`RedirectHandler(u.String(), code)`, kept with the URL value `u`. -/
inductive Handler where
  | HandlerFunc (f : ResponseWriter → Request → Option ResponseWriter)
  | redirectHandler (url : URL) (code : Nat)

/-- Go `Handler.ServeHTTP`. -/
def Handler.ServeHTTP : Handler → ResponseWriter → Request → Option Served
  | .HandlerFunc f, w, r => (f w r).map Served.written
  | .redirectHandler url code, _, _ => some (.redirect url code)

/-- Go `http.NotFoundHandler`. -/
def NotFoundHandler : Handler := .HandlerFunc (fun w r => some (NotFound w r))

/-- Go `muxEntry`. -/
structure muxEntry where
  h : Handler
  pattern : String

/-- Go `http.ServeMux`: the pattern map, the entries whose pattern ends in a
slash (longest first), and whether any pattern names a host. -/
structure ServeMux where
  m : List (String × muxEntry) := []
  es : List muxEntry := []
  hosts : Bool := false

/-- Go `appendSorted`: insert before the first entry with a shorter pattern. -/
def appendSorted : List muxEntry → muxEntry → List muxEntry
  | [], e => [e]
  | x :: xs, e =>
    if x.pattern.utf8ByteSize < e.pattern.utf8ByteSize then e :: x :: xs
    else x :: appendSorted xs e

/-- Go `(*ServeMux).Handle`; `none` is a panic (empty or repeated pattern). -/
def ServeMux.Handle (mux : ServeMux) (pattern : String) (handler : Handler) :
    Option ServeMux :=
  if pattern = "" then none
  else if (mux.m.lookup pattern).isSome then none
  else
    let e : muxEntry := { h := handler, pattern := pattern }
    some { m := mux.m ++ [(pattern, e)]
           es := if pattern.data.getLast? = some '/' then appendSorted mux.es e else mux.es
           hosts := if pattern.data.head? ≠ some '/' then true else mux.hosts }

/-- Go `(*ServeMux).HandleFunc`. -/
def ServeMux.HandleFunc (mux : ServeMux) (pattern : String)
    (handler : ResponseWriter → Request → Option ResponseWriter) : Option ServeMux :=
  mux.Handle pattern (.HandlerFunc handler)

/-- Go `(*ServeMux).match`: exact pattern first, then the longest pattern
ending in a slash that is a prefix of the path. -/
def ServeMux.match_ (mux : ServeMux) (path : String) : Option muxEntry :=
  match mux.m.lookup path with
  | some v => some v
  | none => mux.es.find? (fun e => e.pattern.data.isPrefixOf path.data)

/-- Go `(*ServeMux).handler`. -/
def ServeMux.handler (mux : ServeMux) (host path : String) : Handler × String :=
  let found := if mux.hosts then mux.match_ (host ++ path) else none
  let found := match found with
    | some e => some e
    | none => mux.match_ path
  match found with
  | some e => (e.h, e.pattern)
  | none => (NotFoundHandler, "")

/-- Go `(*ServeMux).shouldRedirectRLocked`. -/
def ServeMux.shouldRedirectRLocked (mux : ServeMux) (host path : String) : Bool :=
  if (mux.m.lookup path).isSome || (mux.m.lookup (host ++ path)).isSome then false
  else if path.utf8ByteSize = 0 then false
  else if (mux.m.lookup (path ++ "/")).isSome || (mux.m.lookup (host ++ path ++ "/")).isSome
    then decide (path.data.getLast? ≠ some '/')
  else false

/-- Go `(*ServeMux).redirectToPathSlash`: the URL to redirect to, if any. -/
def ServeMux.redirectToPathSlash (mux : ServeMux) (host path : String) (u : URL) :
    Option URL :=
  if mux.shouldRedirectRLocked host path then
    some { Path := path ++ "/", RawQuery := u.RawQuery }
  else none

/-- Go `cleanPath`: the canonical form of a request path. -/
def cleanPath (p : String) : String :=
  if p = "" then "/"
  else
    let p := if p.data.head? ≠ some '/' then "/" ++ p else p
    let np := path.Clean p
    if p.data.getLast? = some '/' ∧ np ≠ "/" then
      if p.utf8ByteSize = np.utf8ByteSize + 1 ∧ np.data.isPrefixOf p.data then p
      else np ++ "/"
    else np

/-- Go `(*ServeMux).Handler`, with the redirect status of the release and
`stripHostPort` taken as parameters.  The code is that of the releases before
1.22; from 1.22 on the multiplexer canonicalises the escaped path with the
same `cleanPath` and redirects in the same way.  Two cases on which the
releases differ are not part of the embedding (`none`): a CONNECT request,
which is not canonicalised, whose path is not in canonical form (empty, not
rooted), and a request whose path is not in canonical form while its URL
carries a `RawPath`, so that the escaped path can be canonical. -/
def ServeMux.Handler (status : RedirectStatus) (stripHostPort : String → String)
    (mux : ServeMux) (r : Request) : Option (Handler × String) :=
  if r.Method = "CONNECT" then
    if cleanPath r.URL.Path = r.URL.Path then
      match mux.redirectToPathSlash r.URL.Host r.URL.Path r.URL with
      | some u => some (.redirectHandler u status.code, u.Path)
      | none => some (mux.handler r.Host r.URL.Path)
    else none
  else
    let host := stripHostPort r.Host
    let path := cleanPath r.URL.Path
    match mux.redirectToPathSlash host path r.URL with
    | some u => some (.redirectHandler u status.code, u.Path)
    | none =>
      if path ≠ r.URL.Path then
        if r.URL.RawPath = "" then
          some (.redirectHandler { Path := path, RawQuery := r.URL.RawQuery } status.code,
            (mux.handler host path).2)
        else none
      else some (mux.handler host r.URL.Path)

/-- Go `(*ServeMux).ServeHTTP`. -/
def ServeMux.ServeHTTP (status : RedirectStatus) (stripHostPort : String → String)
    (mux : ServeMux) (w : ResponseWriter) (r : Request) : Option Served :=
  if r.RequestURI = "*" then
    let w := if r.ProtoMajor > 1 ∨ (r.ProtoMajor = 1 ∧ r.ProtoMinor ≥ 1)
      then w.HeaderSet "Connection" "close" else w
    some (.written (w.WriteHeader StatusBadRequest))
  else
    match mux.Handler status stripHostPort r with
    | some h => h.1.ServeHTTP w r
    | none => none

end http

/-! ## main.go -/

open http

/-- Go `Project`: a portfolio project. -/
structure Project where
  Title : String
  Description : String
  Technology : String
  deriving DecidableEq, Repr

/-- The package-level variable `projects` as initialised in `main.go`. -/
def projects : List Project :=
  [ { Title := "Container Orchestration Platform"
      Description := "Kubernetes-based container orchestration solution"
      Technology := "Docker, Kubernetes, Helm" },
    { Title := "CI/CD Pipeline"
      Description := "Automated deployment pipeline"
      Technology := "Jenkins, GitLab CI, ArgoCD" } ]

/-- The raw string assigned to `html` in `homeHandler`. -/
def homeHandler.html : String :=
"
    <!DOCTYPE html>
    <html>
        <head>
            <title>DevOps Portfolio</title>
            <style>
                body \x7b
                    font-family: Arial, sans-serif;
                    line-height: 1.6;
                    margin: 0;
                    padding: 20px;
                    background-color: #f4f4f4;
                \x7d
                header \x7b
                    background-color: #333;
                    color: white;
                    text-align: center;
                    padding: 1rem;
                    margin-bottom: 20px;
                \x7d
                nav \x7b
                    margin-bottom: 20px;
                \x7d
                nav a \x7b
                    margin-right: 15px;
                    text-decoration: none;
                    color: #333;
                \x7d
                .container \x7b
                    max-width: 800px;
                    margin: auto;
                \x7d
            </style>
        </head>
        <body>
            <header>
                <h1>My DevOps Portfolio</h1>
            </header>
            <div class=\"container\">
                <nav>
                    <a href=\"/\">Home</a>
                    <a href=\"/projects\">Projects</a>
                    <a href=\"/contact\">Contact</a>
                </nav>
                <h2>Welcome to my DevOps Portfolio</h2>
                <p>I am a DevOps engineer specializing in cloud infrastructure, automation, and continuous integration/deployment.</p>
                <p>Browse through my projects to see examples of my work in action.</p>
            </div>
        </body>
    </html>"

/-- The raw string `html` starts from in `projectsHandler`: the document
shell up to the navigation bar. -/
def projectsHandler.shell : String :=
"
    <!DOCTYPE html>
    <html>
        <head>
            <title>Projects - DevOps Portfolio</title>
            <style>
                body \x7b
                    font-family: Arial, sans-serif;
                    line-height: 1.6;
                    margin: 0;
                    padding: 20px;
                    background-color: #f4f4f4;
                \x7d
                header \x7b
                    background-color: #333;
                    color: white;
                    text-align: center;
                    padding: 1rem;
                    margin-bottom: 20px;
                \x7d
                nav \x7b
                    margin-bottom: 20px;
                \x7d
                nav a \x7b
                    margin-right: 15px;
                    text-decoration: none;
                    color: #333;
                \x7d
                .container \x7b
                    max-width: 800px;
                    margin: auto;
                \x7d
                .project \x7b
                    background: white;
                    padding: 20px;
                    margin-bottom: 20px;
                    border-radius: 5px;
                    box-shadow: 0 2px 5px rgba(0,0,0,0.1);
                \x7d
            </style>
        </head>
        <body>
            <header>
                <h1>My Projects</h1>
            </header>
            <div class=\"container\">
                <nav>
                    <a href=\"/\">Home</a>
                    <a href=\"/projects\">Projects</a>
                    <a href=\"/contact\">Contact</a>
                </nav>"

/-- The format string of the `Sprintf` call in `projectsHandler`: one
project block. -/
def projectsHandler.snippet : String :=
"
            <div class=\"project\">
                <h3>%s</h3>
                <p>%s</p>
                <p><strong>Technologies:</strong> %s</p>
            </div>"

/-- The raw string appended to `html` after the loop of `projectsHandler`. -/
def projectsHandler.closing : String :=
"
            </div>
        </body>
    </html>"

/-- The raw string assigned to `html` in `contactHandler`. -/
def contactHandler.html : String :=
"
    <!DOCTYPE html>
    <html>
        <head>
            <title>Contact - DevOps Portfolio</title>
            <style>
                body \x7b
                    font-family: Arial, sans-serif;
                    line-height: 1.6;
                    margin: 0;
                    padding: 20px;
                    background-color: #f4f4f4;
                \x7d
                header \x7b
                    background-color: #333;
                    color: white;
                    text-align: center;
                    padding: 1rem;
                    margin-bottom: 20px;
                \x7d
                nav \x7b
                    margin-bottom: 20px;
                \x7d
                nav a \x7b
                    margin-right: 15px;
                    text-decoration: none;
                    color: #333;
                \x7d
                .container \x7b
                    max-width: 800px;
                    margin: auto;
                \x7d
                .contact-info \x7b
                    background: white;
                    padding: 20px;
                    border-radius: 5px;
                    box-shadow: 0 2px 5px rgba(0,0,0,0.1);
                \x7d
            </style>
        </head>
        <body>
            <header>
                <h1>Contact Me</h1>
            </header>
            <div class=\"container\">
                <nav>
                    <a href=\"/\">Home</a>
                    <a href=\"/projects\">Projects</a>
                    <a href=\"/contact\">Contact</a>
                </nav>
                <div class=\"contact-info\">
                    <h2>Get in Touch</h2>
                    <p>Email: your.email@example.com</p>
                    <p>LinkedIn: linkedin.com/in/yourprofile</p>
                    <p>GitHub: github.com/yourusername</p>
                </div>
            </div>
        </body>
    </html>"

/-- Go `homeHandler`: handler for the home page. -/
def homeHandler (w : ResponseWriter) (r : Request) : Option ResponseWriter :=
  if r.URL.Path ≠ "/" then some (NotFound w r)
  else Fprintf w homeHandler.html []

/-- The `for ... range projects` loop of `projectsHandler`: each project is
formatted into the snippet and appended to `html`. -/
def projectsHandler.loop : List Project → String → Option String
  | [], html => some html
  | project :: rest, html =>
    match fmt.Sprintf projectsHandler.snippet
        [fmt.Operand.ofString project.Title, fmt.Operand.ofString project.Description,
         fmt.Operand.ofString project.Technology] with
    | some projectHTML => projectsHandler.loop rest (html ++ projectHTML)
    | none => none

/-- The value of `html` that `projectsHandler` passes to `Fprintf`. -/
def projectsHandler.page (projects : List Project) : Option String :=
  (projectsHandler.loop projects projectsHandler.shell).map
    (fun html => html ++ projectsHandler.closing)

/-- Go `projectsHandler`: handler for the projects page, reading the
package-level `projects`. -/
def projectsHandler (projects : List Project) (w : ResponseWriter) (_r : Request) :
    Option ResponseWriter :=
  match projectsHandler.page projects with
  | some html => Fprintf w html []
  | none => none

/-- Go `contactHandler`: handler for the contact page. -/
def contactHandler (w : ResponseWriter) (_r : Request) : Option ResponseWriter :=
  Fprintf w contactHandler.html []

/-- The process as `main` leaves it: what was written to the two standard
streams, the default multiplexer, the addresses `ListenAndServe` was called
with, and the status of an `os.Exit` call if there was one. -/
structure Process where
  Stdout : String := ""
  Stderr : String := ""
  DefaultServeMux : ServeMux := {}
  listenCalls : List String := []
  exited : Option Nat := none

/-- The three `http.HandleFunc` calls of `main` on the default multiplexer. -/
def registerHandlers (projects : List Project) (mux : ServeMux) : Option ServeMux :=
  match mux.HandleFunc "/" homeHandler with
  | none => none
  | some mux =>
    match mux.HandleFunc "/projects" (projectsHandler projects) with
    | none => none
    | some mux => mux.HandleFunc "/contact" contactHandler

/-- The default multiplexer once the three registrations of `main` are done. -/
def routes (projects : List Project) : ServeMux :=
  { m := [("/", { h := .HandlerFunc homeHandler, pattern := "/" }),
          ("/projects", { h := .HandlerFunc (projectsHandler projects), pattern := "/projects" }),
          ("/contact", { h := .HandlerFunc contactHandler, pattern := "/contact" })]
    es := [{ h := .HandlerFunc homeHandler, pattern := "/" }]
    hosts := false }

/-- Go `fmt.Println`, which writes to `os.Stdout`. -/
def Process.Println (p : Process) (a : List fmt.Operand) : Process :=
  { p with Stdout := p.Stdout ++ fmt.Sprintln a }

/-- Go `fmt.Printf`, which writes to `os.Stdout`. -/
def Process.Printf (p : Process) (format : String) (a : List fmt.Operand) :
    Option Process :=
  (fmt.Sprintf format a).map (fun out => { p with Stdout := p.Stdout ++ out })

/-- The call `http.ListenAndServe(addr, nil)` as `main` sees it: the call is
recorded; what it returns is given to `main` as an argument. -/
def Process.ListenAndServe (p : Process) (addr : String) : Process :=
  { p with listenCalls := p.listenCalls ++ [addr] }

/-- Go `main`.  `err` is what `http.ListenAndServe` returns when it returns:
`none` for a nil error, otherwise the error as a print operand (the name of
its dynamic type and the text of `Error()`). -/
def main (projects : List Project) (err : Option fmt.Operand) : Option Process :=
  match registerHandlers projects {} with
  | none => none
  | some mux =>
    let p : Process := { DefaultServeMux := mux }
    let p := p.Println [fmt.Operand.ofString "Server starting on http://localhost:8080"]
    let p := p.ListenAndServe ":8080"
    match err with
    | none => some p
    | some e => p.Printf "Error starting server: %s\n" [e]

/-! ## Notions used to state the properties -/

/-- Start positions, counted from `i`, of the occurrences of `sub` in a text. -/
def occurrences (sub : List Char) : List Char → Nat → List Nat
  | [], i => if sub = [] then [i] else []
  | c :: cs, i =>
    if sub.isPrefixOf (c :: cs) then i :: occurrences sub cs (i + 1)
    else occurrences sub cs (i + 1)

/-- The title, description and technology strings of a registry, record by
record. -/
def registryFields (ps : List Project) : List String :=
  ps.flatMap (fun p => [p.Title, p.Description, p.Technology])

/-- No title, description or technology of the registry contains `%`. -/
def percentFree (ps : List Project) : Prop :=
  ∀ p ∈ ps, '%' ∉ p.Title.data ∧ '%' ∉ p.Description.data ∧ '%' ∉ p.Technology.data

instance (ps : List Project) : Decidable (percentFree ps) := by
  unfold percentFree; infer_instance

/-- One project block as the specification describes it: the fixed snippet
with the record's three fields inserted unchanged. -/
def projectBlock (p : Project) : String :=
  "\n            <div class=\"project\">\n                <h3>" ++ p.Title ++
  "</h3>\n                <p>" ++ p.Description ++
  "</p>\n                <p><strong>Technologies:</strong> " ++ p.Technology ++
  "</p>\n            </div>"

/-- The blocks of a registry, in registry order. -/
def projectBlocks : List Project → String
  | [] => ""
  | p :: ps => projectBlock p ++ projectBlocks ps

/-- The projects page as the specification describes it: the document shell,
one block per record in registry order, the closing markup. -/
def projectsPage (ps : List Project) : String :=
  projectsHandler.shell ++ projectBlocks ps ++ projectsHandler.closing

/-! ## Lemmas on formatting -/

/-- A format without `%` and without operands is written unchanged. -/
theorem doPrintf_plain (format : String) (h : '%' ∉ format.data) :
    fmt.doPrintf format [] = some format.data := by
  have keep : format.data.takeWhile (fun c => c != '%') = format.data := by
    rw [List.takeWhile_eq_self_iff]
    intro c hc
    simp only [bne_iff_ne, ne_eq]
    rintro rfl
    exact h hc
  have gone : format.data.dropWhile (fun c => c != '%') = [] := by
    rw [List.dropWhile_eq_nil_iff]
    intro c hc
    simp only [bne_iff_ne, ne_eq]
    rintro rfl
    exact h hc
  simp [fmt.doPrintf, fmt.formatLoop, keep, gone, fmt.pp.writeString]

/-- `Fprintf` with a `%`-free format and no operands writes the format. -/
theorem Fprintf_plain (w : ResponseWriter) (format : String) (h : '%' ∉ format.data) :
    Fprintf w format [] = some (w.Write format) := by
  simp [Fprintf, fmt.Sprintf, doPrintf_plain format h]

set_option maxRecDepth 100000 in
/-- `Sprintf` on the snippet yields the block of the record, whatever the
fields contain: every `%s` takes the fast path of `doPrintf` and writes its
operand unchanged. -/
theorem Sprintf_snippet (p : Project) :
    fmt.Sprintf projectsHandler.snippet
        [fmt.Operand.ofString p.Title, fmt.Operand.ofString p.Description,
         fmt.Operand.ofString p.Technology]
      = some (projectBlock p) := by
  rfl

set_option maxRecDepth 100000 in
/-- One round of the loop of `projectsHandler` appends the block of the
record. -/
theorem loop_cons (p : Project) (ps : List Project) (html : String) :
    projectsHandler.loop (p :: ps) html = projectsHandler.loop ps (html ++ projectBlock p) := by
  rfl

/-- The loop of `projectsHandler` appends the blocks of the registry. -/
theorem loop_eq (ps : List Project) (html : String) :
    projectsHandler.loop ps html = some (html ++ projectBlocks ps) := by
  induction ps generalizing html with
  | nil =>
    rw [projectBlocks, String.append_empty]
    rfl
  | cons p ps ih =>
    rw [loop_cons, ih, projectBlocks, String.append_assoc]

/-- The string `projectsHandler` assembles is the page of the specification,
for every registry. -/
theorem page_eq (ps : List Project) :
    projectsHandler.page ps = some (projectsPage ps) := by
  simp [projectsHandler.page, loop_eq, projectsPage]

/-- `projectsHandler` formats the assembled page once more. -/
theorem projectsHandler_eq (ps : List Project) (w : ResponseWriter) (r : Request) :
    projectsHandler ps w r = Fprintf w (projectsPage ps) [] := by
  simp [projectsHandler, page_eq]

/-- The document shell of the projects page holds no `%`. -/
theorem percent_not_mem_shell : '%' ∉ projectsHandler.shell.data := by decide!

/-- The closing markup of the projects page holds no `%`. -/
theorem percent_not_mem_closing : '%' ∉ projectsHandler.closing.data := by decide!

/-- The blocks of a `%`-free registry are `%`-free. -/
theorem percent_not_mem_blocks (ps : List Project) (h : percentFree ps) :
    '%' ∉ (projectBlocks ps).data := by
  induction ps with
  | nil => simp [projectBlocks]
  | cons p ps ih =>
    have hp := h p (List.mem_cons_self _ _)
    have hps : percentFree ps := fun q hq => h q (List.mem_cons_of_mem _ hq)
    have l1 : '%' ∉ "\n            <div class=\"project\">\n                <h3>".data := by
      decide
    have l2 : '%' ∉ "</h3>\n                <p>".data := by decide
    have l3 : '%' ∉ "</p>\n                <p><strong>Technologies:</strong> ".data := by
      decide
    have l4 : '%' ∉ "</p>\n            </div>".data := by decide
    simp only [projectBlocks, projectBlock, String.data_append, List.mem_append, not_or]
    exact ⟨⟨⟨⟨⟨⟨⟨l1, hp.1⟩, l2⟩, hp.2.1⟩, l3⟩, hp.2.2⟩, l4⟩, ih hps⟩

/-- The page of a `%`-free registry is `%`-free. -/
theorem percent_not_mem_page (ps : List Project) (h : percentFree ps) :
    '%' ∉ (projectsPage ps).data := by
  simp only [projectsPage, String.data_append, List.mem_append, not_or]
  exact ⟨⟨percent_not_mem_shell, percent_not_mem_blocks ps h⟩, percent_not_mem_closing⟩

/-- On a `%`-free registry `projectsHandler` writes the page unchanged. -/
theorem projectsHandler_percentFree (ps : List Project) (h : percentFree ps)
    (w : ResponseWriter) (r : Request) :
    projectsHandler ps w r = some (w.Write (projectsPage ps)) := by
  rw [projectsHandler_eq, Fprintf_plain _ _ (percent_not_mem_page ps h)]

/-! ## The loops always finish -/

section Loops

open fmt

/-- `parsenum` leaves no more of the window than it was given. -/
theorem parsenumLoop_length (num : Int) (isnum : Bool) (l : List Char) :
    (parsenumLoop num isnum l).2.2.length ≤ l.length := by
  induction l generalizing num isnum with
  | nil => simp [parsenumLoop]
  | cons c cs ih =>
    unfold parsenumLoop
    split_ifs
    · simp
    · exact Nat.le_succ_of_le (ih _ _)
    · simp

/-- `parseArgNumber` leaves no more of the format than it was given. -/
theorem parseArgNumber_length (format : List Char) :
    (parseArgNumber format).2.1.length ≤ format.length := by
  have hdrop : (format.drop 1).length ≤ format.length := by simp
  unfold parseArgNumber
  split_ifs
  · exact hdrop
  · have hdw := (List.dropWhile_suffix (fun c => c != ']') (l := format.drop 1)).length_le
    split
    · exact hdrop
    · rename_i after heq
      rw [heq] at hdw
      have hafter : after.length ≤ format.length := by
        simp only [List.length_cons] at hdw
        omega
      rcases hp : parsenum (List.takeWhile (fun c => c != ']') (format.drop 1))
        with ⟨width, ok, left⟩
      simp only
      split_ifs
      · exact hafter
      · exact hafter

/-- `argNumber` leaves no more of the format than it was given. -/
theorem argNumber_length (p : pp) (argNum : Nat) (format : List Char) (numArgs : Nat) :
    (argNumber p argNum format numArgs).2.2.1.length ≤ format.length := by
  unfold argNumber
  split
  · rename_i rest
    have h := parseArgNumber_length ('[' :: rest)
    split
    rename_i index rest' ok heq
    rw [heq] at h
    split_ifs
    · exact h
    · exact h
  · exact Nat.le_refl _

/-- Without operands the flag loop never takes the fast path, and it leaves
no more of the format than it was given. -/
theorem simpleFormat_complex (argNum : Nat) (p : pp) (format : List Char) :
    ∃ p' rest, simpleFormat [] argNum p format = .complex p' rest ∧
      rest.length ≤ format.length := by
  induction format generalizing p with
  | nil => exact ⟨p, [], rfl, Nat.le_refl _⟩
  | cons c cs ih =>
    unfold simpleFormat
    split_ifs with h1 h2 h3 h4 h5 h6
    · obtain ⟨p', rest, h, hl⟩ := ih { p with fmt := { p.fmt with sharp := true } }
      exact ⟨p', rest, h, Nat.le_succ_of_le hl⟩
    · obtain ⟨p', rest, h, hl⟩ := ih { p with fmt := { p.fmt with zero := !p.fmt.minus } }
      exact ⟨p', rest, h, Nat.le_succ_of_le hl⟩
    · obtain ⟨p', rest, h, hl⟩ := ih { p with fmt := { p.fmt with plus := true } }
      exact ⟨p', rest, h, Nat.le_succ_of_le hl⟩
    · obtain ⟨p', rest, h, hl⟩ :=
        ih { p with fmt := { p.fmt with minus := true, zero := false } }
      exact ⟨p', rest, h, Nat.le_succ_of_le hl⟩
    · obtain ⟨p', rest, h, hl⟩ := ih { p with fmt := { p.fmt with space := true } }
      exact ⟨p', rest, h, Nat.le_succ_of_le hl⟩
    · exact absurd h6.2.2 (by simp)
    · exact absurd h6.2.2 (by simp)
    · exact ⟨p, c :: cs, rfl, Nat.le_refl _⟩

/-- The width part leaves no more of the format than it was given. -/
theorem parseWidth_length (p : pp) (a : List Operand) (argNum : Nat) (afterIndex : Bool)
    (format : List Char) :
    (parseWidth p a argNum afterIndex format).2.2.1.length ≤ format.length := by
  unfold parseWidth
  split
  · rcases intFromArg a argNum with ⟨wid, widPresent, argNum'⟩
    simp
  · rcases hp : parsenum format with ⟨wid, widPresent, rest⟩
    have h := parsenumLoop_length 0 false format
    unfold parsenum at hp
    rw [hp] at h
    exact h

/-- The precision part leaves no more of the format than it was given. -/
theorem parsePrecision_length (p : pp) (a : List Operand) (argNum : Nat) (afterIndex : Bool)
    (format : List Char) :
    (parsePrecision p a argNum afterIndex format).2.2.1.length ≤ format.length := by
  unfold parsePrecision
  split
  · rename_i rest
    dsimp only
    generalize (if afterIndex = true then ({ p with goodArgNum := false } : pp) else p) = p0
    have h1 := argNumber_length p0 argNum rest a.length
    rcases hn : argNumber p0 argNum rest a.length with ⟨p1, argNum1, rest1, afterIndex1⟩
    rw [hn] at h1
    dsimp only at h1 ⊢
    split
    · rename_i rest2
      rcases intFromArg a argNum1 with ⟨prec, precPresent, argNum2⟩
      simp only [List.length_cons] at h1 ⊢
      omega
    · rcases hp : parsenum rest1 with ⟨prec, precPresent, rest3⟩
      have h3 := parsenumLoop_length 0 false rest1
      unfold parsenum at hp
      rw [hp] at h3
      simp only [List.length_cons] at h3 ⊢
      omega
  · exact Nat.le_refl _

/-- Without operands the verb switch always writes: `%`, a bad index or a
missing operand. -/
theorem printVerb_nil (p : pp) (argNum : Nat) (verb : Char) :
    ∃ p' n, printVerb p [] argNum verb = some (p', n) := by
  unfold printVerb
  split_ifs with h1 h2 h3
  · exact ⟨_, _, rfl⟩
  · exact ⟨_, _, rfl⟩
  · exact ⟨_, _, rfl⟩
  · exact absurd (Nat.zero_le argNum) h3
  · exact absurd (Nat.zero_le argNum) h3

/-- Without operands `formatLoop` ends with a result whenever the fuel
exceeds the length of the format. -/
theorem formatLoop_nil_isSome (fuel : Nat) (p : pp) (argNum : Nat) (afterIndex : Bool)
    (format : List Char) (hlen : format.length < fuel) :
    (formatLoop [] fuel p argNum afterIndex format).isSome = true := by
  induction fuel generalizing p argNum afterIndex format with
  | zero => omega
  | succ fuel ih =>
    unfold formatLoop
    dsimp only
    have hdw := (List.dropWhile_suffix (fun c => c != '%') (l := format)).length_le
    split
    · rfl
    · rename_i c f1 heq
      rw [heq] at hdw
      simp only [List.length_cons] at hdw
      generalize ({ buf := _, fmt := _, reordered := _, goodArgNum := _ } : pp) = p1
      obtain ⟨p2, f2, hsf, hl2⟩ := simpleFormat_complex argNum p1 f1
      rw [hsf]
      dsimp only
      have h3 := argNumber_length p2 argNum f2 ([] : List Operand).length
      rcases hn3 : argNumber p2 argNum f2 ([] : List Operand).length with ⟨p3, n3, f3, a3⟩
      rw [hn3] at h3
      dsimp only at h3 ⊢
      have h4 := parseWidth_length p3 [] n3 a3 f3
      rcases hn4 : parseWidth p3 [] n3 a3 f3 with ⟨p4, n4, f4, a4⟩
      rw [hn4] at h4
      dsimp only at h4 ⊢
      have h5 := parsePrecision_length p4 [] n4 a4 f4
      rcases hn5 : parsePrecision p4 [] n4 a4 f4 with ⟨p5, n5, f5, a5⟩
      rw [hn5] at h5
      dsimp only at h5 ⊢
      have h6 : (if (!a5) = true then argNumber p5 n5 f5 ([] : List Operand).length
          else (p5, n5, f5, a5)).2.2.1.length ≤ f5.length := by
        split_ifs
        · exact argNumber_length _ _ _ _
        · exact Nat.le_refl _
      rcases hn6 : (if (!a5) = true then argNumber p5 n5 f5 ([] : List Operand).length
          else (p5, n5, f5, a5)) with ⟨p6, n6, f6, a6⟩
      rw [hn6] at h6
      dsimp only at h6 ⊢
      cases f6 with
      | nil => rfl
      | cons verb f7 =>
        dsimp only
        obtain ⟨p8, n8, hv⟩ := printVerb_nil p6 n6 verb
        rw [hv]
        dsimp only
        apply ih
        simp only [List.length_cons] at h6
        omega

/-- Without operands `doPrintf` always produces a text. -/
theorem doPrintf_nil_isSome (format : String) : (doPrintf format []).isSome = true := by
  unfold doPrintf
  have h := formatLoop_nil_isSome (format.data.length + 1) {} 0 false format.data
    (Nat.lt_succ_self _)
  cases hf : formatLoop [] (format.data.length + 1) {} 0 false format.data with
  | none => rw [hf] at h; exact absurd h (by simp)
  | some r =>
    obtain ⟨p, n⟩ := r
    dsimp only
    split_ifs <;> rfl

/-- Without operands `Fprintf` always writes. -/
theorem Fprintf_nil_exists (w : ResponseWriter) (format : String) :
    ∃ out, Fprintf w format [] = some (w.Write out) := by
  have h := doPrintf_nil_isSome format
  cases hd : doPrintf format [] with
  | none => rw [hd] at h; exact absurd h (by simp)
  | some out => exact ⟨String.mk out, by simp [Fprintf, Sprintf, hd]⟩

/-- Whatever the registry, `projectsHandler` answers, with status 200 on a
fresh response writer. -/
theorem projectsHandler_answers (ps : List Project) (r : Request) :
    ∃ w, projectsHandler ps NewRecorder r = some w ∧ w.wroteHeader = true ∧ w.Code = 200 := by
  obtain ⟨out, h⟩ := Fprintf_nil_exists NewRecorder (projectsPage ps)
  exact ⟨_, (projectsHandler_eq ps _ r).trans h, rfl, rfl⟩

/-- The loop of `Clean` does not depend on the fuel once the fuel exceeds the
length of the unread path: the fuel given by `Clean` is never used up. -/
theorem cleanLoop_fuel (rooted : Bool) (fuel₁ fuel₂ : Nat) (out : List Char) (dotdot : Nat)
    (rest : List Char) (h₁ : rest.length < fuel₁) (h₂ : rest.length < fuel₂) :
    path.cleanLoop rooted fuel₁ out dotdot rest = path.cleanLoop rooted fuel₂ out dotdot rest := by
  induction fuel₁ generalizing fuel₂ out dotdot rest with
  | zero => omega
  | succ n ih =>
    cases fuel₂ with
    | zero => omega
    | succ m =>
      cases rest with
      | nil => rfl
      | cons c cs =>
        simp only [List.length_cons] at h₁ h₂
        have hd : (cs.drop 1).length ≤ cs.length := by simp
        have hw : c ≠ '/' →
            ((c :: cs).dropWhile (fun x => x != '/')).length ≤ cs.length := by
          intro hne
          have hc : (c != '/') = true := by simpa using hne
          rw [List.dropWhile_cons]
          simp only [hc, if_true]
          exact (List.dropWhile_suffix _).length_le
        unfold path.cleanLoop
        split_ifs with c1 <;> try dsimp only
        all_goals first
          | exact ih m _ _ _ (by omega) (by omega)
          | exact ih m _ _ _ (by have := hw c1; omega) (by have := hw c1; omega)

end Loops

/-- The home document holds no `%`. -/
theorem percent_not_mem_home : '%' ∉ homeHandler.html.data := by decide!

/-- The contact document holds no `%`. -/
theorem percent_not_mem_contact : '%' ∉ contactHandler.html.data := by decide!

/-- `contactHandler` writes its document, whatever the request. -/
theorem contactHandler_eq (w : ResponseWriter) (r : Request) :
    contactHandler w r = some (w.Write contactHandler.html) :=
  Fprintf_plain w contactHandler.html percent_not_mem_contact

/-- On the root path `homeHandler` writes its document. -/
theorem homeHandler_of_root (w : ResponseWriter) (r : Request) (h : r.URL.Path = "/") :
    homeHandler w r = some (w.Write homeHandler.html) := by
  simp only [homeHandler, h, ne_eq, not_true_eq_false, if_false]
  exact Fprintf_plain _ _ percent_not_mem_home

/-- On any other path `homeHandler` calls `http.NotFound`. -/
theorem homeHandler_of_other (w : ResponseWriter) (r : Request) (h : r.URL.Path ≠ "/") :
    homeHandler w r = some (NotFound w r) := by
  simp only [homeHandler, h, ne_eq, not_false_eq_true, if_true]

/-- A value read off an optional result comes from a result that exists. -/
theorem exists_of_map_eq_true {α : Type} (o : Option α) (f : α → Bool)
    (h : o.map f = some true) : ∃ a, o = some a ∧ f a = true := by
  cases o with
  | none => simp at h
  | some a => exact ⟨a, rfl, by simpa using h⟩

/-! ## The handlers -/

/-- C1: for a request whose URL path is exactly `/`, `homeHandler` answers
with status 200 and writes its document, which contains the text
"Welcome to my DevOps Portfolio". -/
theorem homeHandler_root (r : Request) (h : r.URL.Path = "/") :
    ∃ w, homeHandler NewRecorder r = some w ∧ w.wroteHeader = true ∧ w.Code = 200 ∧
      w.Body = homeHandler.html ∧
      "Welcome to my DevOps Portfolio".data <:+: w.Body.data := by
  refine ⟨NewRecorder.Write homeHandler.html, homeHandler_of_root _ r h, rfl, rfl, rfl, ?_⟩
  decide!

/-- The request `GET /` as an instance of the root-path property. -/
theorem homeHandler_root_witness :
    (({ Method := "GET", URL := { Path := "/" } } : Request).URL.Path = "/") ∧
    ∃ w, homeHandler NewRecorder { Method := "GET", URL := { Path := "/" } } = some w ∧
      w.wroteHeader = true ∧ w.Code = 200 ∧ w.Body = homeHandler.html ∧
      "Welcome to my DevOps Portfolio".data <:+: w.Body.data :=
  ⟨rfl, homeHandler_root _ rfl⟩

/-- C2: for a request whose URL path is anything but `/`, `homeHandler`
answers with status 404 and the not-found body of `http.NotFound`, and the
home document is not written. -/
theorem homeHandler_other_path (r : Request) (h : r.URL.Path ≠ "/") :
    ∃ w, homeHandler NewRecorder r = some w ∧ w = NotFound NewRecorder r ∧
      w.wroteHeader = true ∧ w.Code = 404 ∧ w.Body = "404 page not found\n" ∧
      ¬ homeHandler.html.data <:+: w.Body.data := by
  refine ⟨NotFound NewRecorder r, homeHandler_of_other _ r h, rfl, rfl, rfl, rfl, ?_⟩
  show ¬ homeHandler.html.data <:+: "404 page not found\n".data
  decide!

/-- The paths `/nope`, the empty path and `//` as instances of the
not-found property. -/
theorem homeHandler_other_path_witness :
    ((({ Method := "GET", URL := { Path := "/nope" } } : Request).URL.Path ≠ "/") ∧
      ∃ w, homeHandler NewRecorder { Method := "GET", URL := { Path := "/nope" } } = some w ∧
        w = NotFound NewRecorder { Method := "GET", URL := { Path := "/nope" } } ∧
        w.wroteHeader = true ∧ w.Code = 404 ∧ w.Body = "404 page not found\n" ∧
        ¬ homeHandler.html.data <:+: w.Body.data) ∧
    ((({ Method := "GET", URL := { Path := "" } } : Request).URL.Path ≠ "/") ∧
      ∃ w, homeHandler NewRecorder { Method := "GET", URL := { Path := "" } } = some w ∧
        w = NotFound NewRecorder { Method := "GET", URL := { Path := "" } } ∧
        w.wroteHeader = true ∧ w.Code = 404 ∧ w.Body = "404 page not found\n" ∧
        ¬ homeHandler.html.data <:+: w.Body.data) ∧
    ((({ Method := "GET", URL := { Path := "//" } } : Request).URL.Path ≠ "/") ∧
      ∃ w, homeHandler NewRecorder { Method := "GET", URL := { Path := "//" } } = some w ∧
        w = NotFound NewRecorder { Method := "GET", URL := { Path := "//" } } ∧
        w.wroteHeader = true ∧ w.Code = 404 ∧ w.Body = "404 page not found\n" ∧
        ¬ homeHandler.html.data <:+: w.Body.data) :=
  ⟨⟨by decide, homeHandler_other_path _ (by decide)⟩,
   ⟨by decide, homeHandler_other_path _ (by decide)⟩,
   ⟨by decide, homeHandler_other_path _ (by decide)⟩⟩

/-- C3: with the configured registry, the body written by `projectsHandler`
contains each record's title, description and technology exactly once, and
these occurrences follow one another in registry order without overlap. -/
theorem projectsHandler_configured_fields (r : Request) :
    ∃ w, projectsHandler projects NewRecorder r = some w ∧
      ∃ pos : List Nat,
        (registryFields projects).map (fun s => occurrences s.data w.Body.data 0)
          = pos.map (fun i => [i]) ∧
        List.Chain' (fun a b : Nat × Nat => a.2 ≤ b.1)
          (List.zipWith (fun s i => (i, i + s.length)) (registryFields projects) pos) := by
  refine ⟨NewRecorder.Write (projectsPage projects),
    projectsHandler_percentFree projects (by decide) _ r,
    [1632, 1689, 1793, 1895, 1934, 2018], ?_, ?_⟩
  · decide!
  · show List.Chain' (fun a b : Nat × Nat => a.2 ≤ b.1)
      [(1632, 1664), (1689, 1738), (1793, 1817), (1895, 1909), (1934, 1963), (2018, 2044)]
    simp

/-- C5: with an empty registry `projectsHandler` does not fail; it answers
with status 200 and a body that is the document shell followed by the
closing markup, with no project block in it. -/
theorem projectsHandler_empty_registry (r : Request) :
    ∃ w, projectsHandler [] NewRecorder r = some w ∧ w.Code = 200 ∧
      w.Body = projectsHandler.shell ++ projectsHandler.closing ∧
      occurrences "<div class=\"project\">".data w.Body.data 0 = [] ∧
      ¬ "<div class=\"project\">".data <:+: w.Body.data := by
  refine ⟨NewRecorder.Write (projectsPage []),
    projectsHandler_percentFree [] (by decide) _ r, rfl, ?_, ?_, ?_⟩
  · decide!
  · decide!
  · decide!

/-- C6: the bodies of any two answers of `contactHandler` are the same,
whatever the two requests. -/
theorem contactHandler_body_fixed (r₁ r₂ : Request) :
    ∃ w₁ w₂, contactHandler NewRecorder r₁ = some w₁ ∧
      contactHandler NewRecorder r₂ = some w₂ ∧ w₁.Body = w₂.Body :=
  ⟨_, _, contactHandler_eq _ r₁, contactHandler_eq _ r₂, rfl⟩

/-- C9: for every request, whatever its path, `contactHandler` answers with
status 200 and a body that contains the email address, the LinkedIn entry and
the GitHub entry. -/
theorem contactHandler_details (r : Request) :
    ∃ w, contactHandler NewRecorder r = some w ∧ w.wroteHeader = true ∧ w.Code = 200 ∧
      "your.email@example.com".data <:+: w.Body.data ∧
      "linkedin.com/in/yourprofile".data <:+: w.Body.data ∧
      "github.com/yourusername".data <:+: w.Body.data := by
  refine ⟨_, contactHandler_eq _ r, rfl, rfl, ?_, ?_, ?_⟩
  · decide!
  · decide!
  · decide!

/-- C4, at a registry whose title contains `%`: the handler assembles the
page of the specification and then formats it again, so the body it writes
is not that page; the title arrives as `100%!U(MISSING)ptime Monitoring`. -/
theorem projectsHandler_percent_title (r : Request) :
    ∃ w, projectsHandler [⟨"100% Uptime Monitoring", "d", "t"⟩] NewRecorder r = some w ∧
      w.Body ≠ projectsPage [⟨"100% Uptime Monitoring", "d", "t"⟩] ∧
      ¬ "100% Uptime Monitoring".data <:+: w.Body.data ∧
      "100%!U(MISSING)ptime Monitoring".data <:+: w.Body.data := by
  rw [projectsHandler_eq]
  have key := exists_of_map_eq_true
    (Fprintf NewRecorder (projectsPage [⟨"100% Uptime Monitoring", "d", "t"⟩]) [])
    (fun w => decide (w.Body ≠ projectsPage [⟨"100% Uptime Monitoring", "d", "t"⟩] ∧
      ¬ "100% Uptime Monitoring".data <:+: w.Body.data ∧
      "100%!U(MISSING)ptime Monitoring".data <:+: w.Body.data)) (by decide!)
  obtain ⟨w, hw, hprop⟩ := key
  exact ⟨w, hw, of_decide_eq_true hprop⟩

/-- C10: `projectsHandler` passes the assembled page to `Fprintf` as the
format.  For every registry without `%` in its fields the body written is the
assembled page (shell, blocks, closing) exactly; for the registry with the
title `100%s` the body written differs from the assembled page. -/
theorem projectsHandler_format_reinterpreted :
    (∀ (ps : List Project) (w : ResponseWriter) (r : Request),
      projectsHandler ps w r
        = (projectsHandler.page ps).bind (fun html => Fprintf w html [])) ∧
    (∀ (ps : List Project) (r : Request), percentFree ps →
      ∃ html w, projectsHandler.page ps = some html ∧ html = projectsPage ps ∧
        projectsHandler ps NewRecorder r = some w ∧ w.Body = html) ∧
    (∀ r : Request,
      ∃ html w, projectsHandler.page [⟨"100%s", "d", "t"⟩] = some html ∧
        projectsHandler [⟨"100%s", "d", "t"⟩] NewRecorder r = some w ∧ w.Body ≠ html ∧
        "100%!s(MISSING)".data <:+: w.Body.data) := by
  refine ⟨?_, ?_, ?_⟩
  · intro ps w r
    rw [projectsHandler_eq, page_eq, Option.some_bind]
  · intro ps r h
    exact ⟨_, _, page_eq ps, rfl, projectsHandler_percentFree ps h _ r, rfl⟩
  · intro r
    rw [projectsHandler_eq]
    have key := exists_of_map_eq_true
      (Fprintf NewRecorder (projectsPage [⟨"100%s", "d", "t"⟩]) [])
      (fun w => decide (w.Body ≠ projectsPage [⟨"100%s", "d", "t"⟩] ∧
        "100%!s(MISSING)".data <:+: w.Body.data)) (by decide!)
    obtain ⟨w, hw, hprop⟩ := key
    exact ⟨_, w, page_eq _, hw, of_decide_eq_true hprop⟩

/-- The configured registry as an instance of the `%`-free case. -/
theorem projectsHandler_format_reinterpreted_witness :
    percentFree projects ∧
    ∃ html w, projectsHandler.page projects = some html ∧ html = projectsPage projects ∧
      projectsHandler projects NewRecorder { Method := "GET", URL := { Path := "/projects" } }
        = some w ∧ w.Body = html :=
  ⟨by decide, projectsHandler_format_reinterpreted.2.1 projects _ (by decide)⟩

/-! ## Routing -/

/-- The three registrations of `main` succeed and yield `routes`. -/
theorem registerHandlers_eq (ps : List Project) :
    registerHandlers ps {} = some (routes ps) := by
  rfl

/-- Looking a path up among the patterns registered by `main`. -/
theorem lookup_routes (ps : List Project) (k : String) :
    (routes ps).m.lookup k =
      if k = "/" then some { h := .HandlerFunc homeHandler, pattern := "/" }
      else if k = "/projects" then
        some { h := .HandlerFunc (projectsHandler ps), pattern := "/projects" }
      else if k = "/contact" then some { h := .HandlerFunc contactHandler, pattern := "/contact" }
      else none := by
  by_cases h1 : k = "/"
  · subst h1; rfl
  · by_cases h2 : k = "/projects"
    · subst h2; rfl
    · by_cases h3 : k = "/contact"
      · subst h3; rfl
      · have b1 : (k == "/") = false := beq_eq_false_iff_ne.mpr h1
        have b2 : (k == "/projects") = false := beq_eq_false_iff_ne.mpr h2
        have b3 : (k == "/contact") = false := beq_eq_false_iff_ne.mpr h3
        simp only [routes, List.lookup, b1, b2, b3, h1, h2, h3, if_false]

/-- The patterns registered by `main`. -/
theorem lookup_routes_isSome (ps : List Project) (k : String) :
    ((routes ps).m.lookup k).isSome = decide (k = "/" ∨ k = "/projects" ∨ k = "/contact") := by
  rw [lookup_routes]
  by_cases h1 : k = "/"
  · simp [h1]
  · by_cases h2 : k = "/projects"
    · simp [h2]
    · by_cases h3 : k = "/contact"
      · simp [h3]
      · simp [h1, h2, h3]

/-- No registered pattern is a non-empty string followed by a slash. -/
theorem append_slash_not_registered (x : String) (hx : x ≠ "") :
    ¬ (x ++ "/" = "/" ∨ x ++ "/" = "/projects" ∨ x ++ "/" = "/contact") := by
  have hdata : (x ++ "/").data = x.data ++ ['/'] := by
    rw [String.data_append]
  have hlast : (x ++ "/").data.getLast? = some '/' := by
    rw [hdata, List.getLast?_append]
    rfl
  rintro (h | h | h)
  · have hx' : x.data = [] := by
      have := congrArg String.data h
      rw [hdata] at this
      have hl := congrArg List.length this
      simp at hl
      exact List.length_eq_zero.mp hl
    exact hx (String.ext hx')
  · rw [h] at hlast
    revert hlast
    decide
  · rw [h] at hlast
    revert hlast
    decide

/-- With the patterns of `main` the multiplexer never redirects a path to the
same path followed by a slash. -/
theorem redirectToPathSlash_routes (ps : List Project) (host path : String) (u : URL) :
    (routes ps).redirectToPathSlash host path u = none := by
  have hfalse : (routes ps).shouldRedirectRLocked host path = false := by
    unfold ServeMux.shouldRedirectRLocked
    split
    · rfl
    · split
      · rfl
      · rename_i _ hsize
        have hpath : path ≠ "" := by
          rintro rfl
          exact hsize rfl
        have hhost : host ++ path ≠ "" := by
          intro h
          have := congrArg String.data h
          rw [String.data_append] at this
          have hp : path.data = [] := (List.append_eq_nil.mp this).2
          exact hpath (String.ext hp)
        have h1 := append_slash_not_registered path hpath
        have h2 := append_slash_not_registered (host ++ path) hhost
        rw [lookup_routes_isSome, lookup_routes_isSome, decide_eq_false h1, decide_eq_false h2]
        rfl
  simp [ServeMux.redirectToPathSlash, hfalse]

/-- The handler the multiplexer of `main` selects for a path. -/
theorem handler_routes (ps : List Project) (host path : String) :
    ((routes ps).handler host path).1 =
      if path = "/" then .HandlerFunc homeHandler
      else if path = "/projects" then .HandlerFunc (projectsHandler ps)
      else if path = "/contact" then .HandlerFunc contactHandler
      else if ['/'].isPrefixOf path.data then .HandlerFunc homeHandler
      else NotFoundHandler := by
  have hes : (routes ps).es = [{ h := .HandlerFunc homeHandler, pattern := "/" }] := rfl
  have hhosts : (routes ps).hosts = false := rfl
  simp only [ServeMux.handler, ServeMux.match_, hhosts, lookup_routes, hes, List.find?]
  by_cases h1 : path = "/"
  · simp [h1]
  · by_cases h2 : path = "/projects"
    · simp [h2]
    · by_cases h3 : path = "/contact"
      · simp [h3]
      · by_cases h4 : ['/'].isPrefixOf path.data = true
        · have h4' : ("/" : String).data.isPrefixOf path.data = true := h4
          simp [h1, h2, h3, h4, h4']
        · have h4' : ("/" : String).data.isPrefixOf path.data = false :=
            Bool.eq_false_iff.mpr h4
          simp [h1, h2, h3, h4, h4']

/-- For a request whose path is in canonical form, the multiplexer of `main`
runs the handler selected for the request path. -/
theorem ServeHTTP_routes (status : RedirectStatus) (stripHostPort : String → String)
    (ps : List Project) (w : ResponseWriter) (r : Request) (huri : r.RequestURI ≠ "*")
    (hcanon : cleanPath r.URL.Path = r.URL.Path) :
    ∃ host, (routes ps).ServeHTTP status stripHostPort w r
      = (((routes ps).handler host r.URL.Path).1).ServeHTTP w r := by
  by_cases hm : r.Method = "CONNECT"
  · exact ⟨r.Host, by
      simp [ServeMux.ServeHTTP, ServeMux.Handler, huri, hm, redirectToPathSlash_routes, hcanon]⟩
  · exact ⟨stripHostPort r.Host, by
      simp [ServeMux.ServeHTTP, ServeMux.Handler, huri, hm, redirectToPathSlash_routes, hcanon]⟩

/-- For a request other than CONNECT whose path is not in canonical form (and
whose URL carries no `RawPath`), the multiplexer of `main` redirects to the cleaned path with the redirect status
of the release. -/
theorem ServeHTTP_routes_redirect (status : RedirectStatus)
    (stripHostPort : String → String) (ps : List Project) (w : ResponseWriter) (r : Request)
    (huri : r.RequestURI ≠ "*") (hm : r.Method ≠ "CONNECT")
    (hraw : r.URL.RawPath = "") (hcanon : cleanPath r.URL.Path ≠ r.URL.Path) :
    (routes ps).ServeHTTP status stripHostPort w r
      = some (.redirect { Path := cleanPath r.URL.Path, RawQuery := r.URL.RawQuery }
          status.code) := by
  simp [ServeMux.ServeHTTP, ServeMux.Handler, Handler.ServeHTTP, huri, hm, hraw,
    redirectToPathSlash_routes, hcanon]

/-- A redirect status is never 404. -/
theorem redirectStatus_ne_notFound (status : RedirectStatus) : status.code ≠ 404 := by
  cases status <;> decide

/-- C7, as the code has it: with the routing registered by `main`, for any
method and any Go release, a request whose `RequestURI` is not `*` is
answered as follows.  If its path is in the canonical form of the
multiplexer: the home page and status 200 on `/`, the projects page and
status 200 on `/projects`, the contact page and status 200 on `/contact`, and
the not-found answer with status 404 on every other path.  If its path is
not in canonical form, its method is not CONNECT and its URL carries no
`RawPath`: a redirect to the cleaned path with the redirect status of the
release, which is not 404. -/
theorem routing_of_main (status : RedirectStatus) (stripHostPort : String → String)
    (mux : ServeMux) (r : Request) (hreg : registerHandlers projects {} = some mux)
    (huri : r.RequestURI ≠ "*") :
    (cleanPath r.URL.Path = r.URL.Path →
      ∃ s, mux.ServeHTTP status stripHostPort NewRecorder r = some s ∧
        (r.URL.Path = "/" →
          s = .written (NewRecorder.Write homeHandler.html) ∧ s.status = 200) ∧
        (r.URL.Path = "/projects" →
          s = .written (NewRecorder.Write (projectsPage projects)) ∧ s.status = 200) ∧
        (r.URL.Path = "/contact" →
          s = .written (NewRecorder.Write contactHandler.html) ∧ s.status = 200) ∧
        (r.URL.Path ≠ "/" → r.URL.Path ≠ "/projects" → r.URL.Path ≠ "/contact" →
          s = .written (NotFound NewRecorder r) ∧ s.status = 404)) ∧
    (r.Method ≠ "CONNECT" → r.URL.RawPath = "" → cleanPath r.URL.Path ≠ r.URL.Path →
      ∃ s, mux.ServeHTTP status stripHostPort NewRecorder r = some s ∧
        s = .redirect { Path := cleanPath r.URL.Path, RawQuery := r.URL.RawQuery }
          status.code ∧
        s.status = status.code ∧ s.status ≠ 404) := by
  rw [registerHandlers_eq] at hreg
  cases hreg
  refine ⟨?_, ?_⟩
  · intro hcanon
    obtain ⟨host, hserve⟩ :=
      ServeHTTP_routes status stripHostPort projects NewRecorder r huri hcanon
    rw [hserve, handler_routes]
    by_cases h1 : r.URL.Path = "/"
    · refine ⟨.written (NewRecorder.Write homeHandler.html), ?_, ?_, ?_, ?_, ?_⟩
      · simp [h1, Handler.ServeHTTP, homeHandler_of_root _ r h1]
      · intro _; exact ⟨rfl, rfl⟩
      · intro h; rw [h1] at h; exact absurd h (by decide)
      · intro h; rw [h1] at h; exact absurd h (by decide)
      · intro h; exact absurd h1 h
    · by_cases h2 : r.URL.Path = "/projects"
      · refine ⟨.written (NewRecorder.Write (projectsPage projects)), ?_, ?_, ?_, ?_, ?_⟩
        · simp [h2, Handler.ServeHTTP,
            projectsHandler_percentFree projects (by decide) NewRecorder r]
        · intro h; exact absurd h h1
        · intro _; exact ⟨rfl, rfl⟩
        · intro h; rw [h2] at h; exact absurd h (by decide)
        · intro _ h; exact absurd h2 h
      · by_cases h3 : r.URL.Path = "/contact"
        · refine ⟨.written (NewRecorder.Write contactHandler.html), ?_, ?_, ?_, ?_, ?_⟩
          · simp [h3, Handler.ServeHTTP, contactHandler_eq]
          · intro h; exact absurd h h1
          · intro h; exact absurd h h2
          · intro _; exact ⟨rfl, rfl⟩
          · intro _ _ h; exact absurd h3 h
        · refine ⟨.written (NotFound NewRecorder r), ?_, ?_, ?_, ?_, ?_⟩
          · by_cases h4 : ['/'].isPrefixOf r.URL.Path.data = true
            · simp [h1, h2, h3, h4, Handler.ServeHTTP, homeHandler_of_other _ r h1]
            · simp [h1, h2, h3, h4, Handler.ServeHTTP, NotFoundHandler]
          · intro h; exact absurd h h1
          · intro h; exact absurd h h2
          · intro h; exact absurd h h3
          · intro _ _ _; exact ⟨rfl, rfl⟩
  · intro hm hraw hcanon
    exact ⟨_, ServeHTTP_routes_redirect status stripHostPort projects NewRecorder r huri hm
      hraw hcanon, rfl, rfl, redirectStatus_ne_notFound status⟩

/-- The requests `POST /nope` (canonical path, older release) and `GET //`
(path not canonical, recent release) as instances of the routing property. -/
theorem routing_of_main_witness :
    ((registerHandlers projects {} = some (routes projects) ∧
      ({ Method := "POST", URL := { Path := "/nope" } } : Request).RequestURI ≠ "*" ∧
      cleanPath "/nope" = "/nope") ∧
     ∃ s, (routes projects).ServeHTTP .MovedPermanently (fun h => h) NewRecorder
        { Method := "POST", URL := { Path := "/nope" } } = some s ∧
      (("/nope" : String) = "/" →
        s = .written (NewRecorder.Write homeHandler.html) ∧ s.status = 200) ∧
      (("/nope" : String) = "/projects" →
        s = .written (NewRecorder.Write (projectsPage projects)) ∧ s.status = 200) ∧
      (("/nope" : String) = "/contact" →
        s = .written (NewRecorder.Write contactHandler.html) ∧ s.status = 200) ∧
      (("/nope" : String) ≠ "/" → ("/nope" : String) ≠ "/projects" →
        ("/nope" : String) ≠ "/contact" →
        s = .written (NotFound NewRecorder { Method := "POST", URL := { Path := "/nope" } }) ∧
          s.status = 404)) ∧
    ((registerHandlers projects {} = some (routes projects) ∧
      ({ Method := "GET", URL := { Path := "//" } } : Request).RequestURI ≠ "*" ∧
      ("GET" : String) ≠ "CONNECT" ∧
      ({ Method := "GET", URL := { Path := "//" } } : Request).URL.RawPath = "" ∧
      cleanPath "//" ≠ "//") ∧
     ∃ s, (routes projects).ServeHTTP .TemporaryRedirect (fun h => h) NewRecorder
        { Method := "GET", URL := { Path := "//" } } = some s ∧
      s = .redirect { Path := cleanPath "//", RawQuery := "" } 307 ∧
      s.status = 307 ∧ s.status ≠ 404) :=
  ⟨⟨⟨rfl, by decide, by decide⟩,
    (routing_of_main .MovedPermanently (fun h => h) (routes projects)
      { Method := "POST", URL := { Path := "/nope" } } rfl (by decide)).1 (by decide)⟩,
   ⟨⟨rfl, by decide, by decide, rfl, by decide⟩,
    (routing_of_main .TemporaryRedirect (fun h => h) (routes projects)
      { Method := "GET", URL := { Path := "//" } } rfl (by decide)).2 (by decide) rfl
      (by decide)⟩⟩

/-- C7 fails for a path that is not in canonical form: whatever the release,
a GET request for `//` is answered with a redirect to `/` (status 301 or
307), not with status 404. -/
theorem routing_double_slash_redirect :
    "//" ≠ "/" ∧ "//" ≠ "/projects" ∧ "//" ≠ "/contact" ∧
    (registerHandlers projects {}).bind (fun mux =>
        mux.ServeHTTP .MovedPermanently (fun h => h) NewRecorder
          { Method := "GET", URL := { Path := "//" } })
      = some (.redirect { Path := "/" } 301) ∧
    (registerHandlers projects {}).bind (fun mux =>
        mux.ServeHTTP .TemporaryRedirect (fun h => h) NewRecorder
          { Method := "GET", URL := { Path := "//" } })
      = some (.redirect { Path := "/" } 307) ∧
    (∀ status : RedirectStatus,
      ((registerHandlers projects {}).bind (fun mux =>
        mux.ServeHTTP status (fun h => h) NewRecorder
          { Method := "GET", URL := { Path := "//" } })).map Served.status ≠ some 404) := by
  refine ⟨by decide, by decide, by decide, by decide!, by decide!, ?_⟩
  intro status
  cases status
  · decide!
  · decide!

/-! ## Start-up -/

set_option maxRecDepth 100000 in
/-- The process `main` leaves behind when `ListenAndServe` returns an error. -/
theorem main_eq (e : fmt.Operand) :
    main projects (some e) = some
      { Stdout := "Server starting on http://localhost:8080\n" ++
          ("Error starting server: " ++ e.text ++ "\n")
        DefaultServeMux := routes projects
        listenCalls := [":8080"] } := by
  rfl

/-- C8, as the code has it: when `ListenAndServe` returns an error, `main`
writes the line `Error starting server: ` followed by the error text to
standard output, after the start-up line, and nothing to standard error; it
has called `ListenAndServe` once and returns without calling `os.Exit`. -/
theorem main_listen_error (e : fmt.Operand) :
    ∃ p, main projects (some e) = some p ∧
      p.Stdout = "Server starting on http://localhost:8080\n" ++
        ("Error starting server: " ++ e.text ++ "\n") ∧
      p.Stderr = "" ∧ p.listenCalls = [":8080"] ∧ p.exited = none :=
  ⟨_, main_eq e, rfl, rfl, rfl, rfl⟩

/-- C8 fails on the stream: with the bind error of a port in use, the message
of `main` is on standard output and standard error stays empty. -/
theorem main_listen_error_on_stdout :
    (main projects
        (some ⟨"*net.OpError", "listen tcp :8080: bind: address already in use"⟩)).map
        (fun p => (p.Stdout, p.Stderr))
      = some ("Server starting on http://localhost:8080\n" ++
          "Error starting server: listen tcp :8080: bind: address already in use\n", "") := by
  decide!

end PortWebApp
